import Mathlib

/-!
Shallow embedding of the versioned social-network graph from
`src/lib.rs` and `src/snlib.rs` of the repository.

Modelling conventions:
* Rust `u64` values are modelled as `Nat`; the sentinel `u64::MAX` used for
  the `follow_end` field is the explicit constant `OPEN = 2^64 - 1`.
  Version-counter overflow (which would require `2^64` commits) is outside
  the model, so `commit` is `Nat` successor.
* `HashMap<(u64,u64), Vec<FollowInterval>>` is modelled as a function
  `Nat × Nat → Option (List FollowInterval)`, preserving the distinction
  between a missing entry and an entry holding an empty vector.
* The two `HashMap<u64, HashSet<u64>>` adjacency indexes are modelled by
  their membership functions `Nat → Nat → Bool` (a missing key and an empty
  set are both "no members", which is how every code path reads them).
* Rust `Result<T, String>` is `ROut T` below, which also has a `fatal`
  constructor modelling a Rust panic (`expect` / `assert!`), so that a panic
  is distinguished from a returned error.  Mutating operations return the
  result paired with the post-state; operations that return `Err` after
  having already mutated `self` (as `snlib.rs::unfollow` does) return the
  mutated state.
* The repository contains two diverging copies of the data structure:
  `src/lib.rs` (namespace `Lib` below) and `src/snlib.rs` (namespace
  `Snlib`).  Both are embedded; they share the state type and the interval
  type, which are textually identical in the two files.
-/

/-- The `u64::MAX` sentinel: `follow_end = OPEN` means "still active". -/
def OPEN : Nat := 2 ^ 64 - 1

/-- One active span of an edge's lifetime (`FollowInterval` in both files). -/
structure FollowInterval where
  follow_start : Nat
  follow_end : Nat
deriving Repr, DecidableEq

namespace FollowInterval

/-- `FollowInterval::new`: initializes `follow_end` to `u64::MAX`. -/
def new (follow_start : Nat) : FollowInterval :=
  { follow_start := follow_start, follow_end := OPEN }

/-- `FollowInterval::is_active`: `version >= start && version <= end`. -/
def is_active (i : FollowInterval) (version : Nat) : Bool :=
  decide (i.follow_start ≤ version) && decide (version ≤ i.follow_end)

end FollowInterval

/-- The graph state (`SocialNetwork` struct, identical in both files). -/
structure SocialNetwork where
  version : Nat
  follow_intervals : Nat × Nat → Option (List FollowInterval)
  follows : Nat → Nat → Bool
  is_followed : Nat → Nat → Bool

namespace SocialNetwork

/-- `SocialNetwork::new`: version 0, all maps empty. -/
def new : SocialNetwork :=
  { version := 0
    follow_intervals := fun _ => none
    follows := fun _ _ => false
    is_followed := fun _ _ => false }

end SocialNetwork

/-- Outcome of a Rust call: `Ok`, `Err(msg)`, or a panic (`fatal`). -/
inductive ROut (α : Type) where
  | ok : α → ROut α
  | err : String → ROut α
  | fatal : String → ROut α
deriving Repr, DecidableEq

/-- Error message of `follow(a, a)`. -/
def selfFollowMsg : String := "Users cannot follow themselves"

/-- Error message of `unfollow(a, a)`. -/
def selfUnfollowMsg : String := "Users cannot unfollow themselves"

/-- Error message of `snlib.rs::unfollow` on an unexplainable interval state
(the spec's `InvalidIntervalState`). -/
def invalidIntervalMsg : String := "Invalid follow interval"

/-- Panic message of the `expect` in `follow` (empty interval vector). -/
def emptyIntervalsMsg : String := "Follow intervals should not be empty"

/-- Insert `followee` into `follows[follower]` and `follower` into
`is_followed[followee]` (the two `entry().or_insert_with(..).insert(..)`
lines shared by `lib.rs::follow` and `snlib.rs::follow`). -/
def addFollowEdge (s : SocialNetwork) (follower_id followee_id : Nat) :
    SocialNetwork :=
  { s with
    follows := fun u v =>
      if u = follower_id ∧ v = followee_id then true else s.follows u v
    is_followed := fun u v =>
      if u = followee_id ∧ v = follower_id then true else s.is_followed u v }

/-- Remove `followee` from `follows[follower]` and `follower` from
`is_followed[followee]` (the two `remove` lines of `snlib.rs::unfollow`). -/
def removeFollowEdge (s : SocialNetwork) (follower_id followee_id : Nat) :
    SocialNetwork :=
  { s with
    follows := fun u v =>
      if u = follower_id ∧ v = followee_id then false else s.follows u v
    is_followed := fun u v =>
      if u = followee_id ∧ v = follower_id then false else s.is_followed u v }

/-- Overwrite the interval list stored for one edge. -/
def setHist (s : SocialNetwork) (follower_id followee_id : Nat)
    (l : List FollowInterval) : SocialNetwork :=
  { s with
    follow_intervals := fun p =>
      if p = (follower_id, followee_id) then some l else s.follow_intervals p }

/-- The interval list of an edge, reading a missing entry as empty. -/
def histListOf (s : SocialNetwork) (follower_id followee_id : Nat) :
    List FollowInterval :=
  (s.follow_intervals (follower_id, followee_id)).getD []

/-- Mutate the `follow_end` field of the last interval (`last_mut()` use
sites in both `unfollow`s and in `snlib.rs::follow`'s reopen branch). -/
def setLastEnd (l : List FollowInterval) (e : Nat) : List FollowInterval :=
  match l with
  | [] => []
  | [i] => [{ i with follow_end := e }]
  | i :: j :: rest => i :: setLastEnd (j :: rest) e

/-- Whether the stored history ends in an OPEN interval. -/
def lastOpenB (h : Option (List FollowInterval)) : Bool :=
  match h with
  | some l =>
    match l.getLast? with
    | some i => decide (i.follow_end = OPEN)
    | none => false
  | none => false

namespace Lib

/-- `lib.rs::SocialNetwork::follow`.  The adjacency maps are updated first,
unconditionally; then: last interval OPEN → no-op `Ok(false)`; otherwise a
fresh interval `{start: version, end: OPEN}` is pushed and `Ok(true)` is
returned.  An existing entry with an empty vector panics via `expect`. -/
def follow (s : SocialNetwork) (follower_id followee_id : Nat) :
    ROut Bool × SocialNetwork :=
  if follower_id = followee_id then (.err selfFollowMsg, s)
  else
    let s1 := addFollowEdge s follower_id followee_id
    match s1.follow_intervals (follower_id, followee_id) with
    | some intervals =>
      match intervals.getLast? with
      | some last =>
        if last.follow_end = OPEN then (.ok false, s1)
        else
          (.ok true, setHist s1 follower_id followee_id
            (intervals ++ [FollowInterval.new s1.version]))
      | none => (.fatal emptyIntervalsMsg, s1)
    | none =>
      (.ok true, setHist s1 follower_id followee_id
        [FollowInterval.new s1.version])

/-- `lib.rs::SocialNetwork::unfollow`.  The two guards
`!contains_key(&follower)` and `!follows[&follower].contains(&followee)`
are a single membership test on the modelled index.  The adjacency maps are
never modified.  Only a last interval with `follow_end == u64::MAX` is
closed (set to the current version, `Ok(true)`); every other interval shape
yields `Ok(false)`. -/
def unfollow (s : SocialNetwork) (follower_id followee_id : Nat) :
    ROut Bool × SocialNetwork :=
  if follower_id = followee_id then (.err selfUnfollowMsg, s)
  else if s.follows follower_id followee_id = false then (.ok false, s)
  else
    match s.follow_intervals (follower_id, followee_id) with
    | some l =>
      if l.isEmpty then (.ok false, s)
      else
        match l.getLast? with
        | some interval =>
          if interval.follow_end = OPEN then
            (.ok true, setHist s follower_id followee_id
              (setLastEnd l s.version))
          else (.ok false, s)
        | none => (.ok false, s)
    | none => (.ok false, s)

/-- `lib.rs::SocialNetwork::is_following`: default the version to the
current one, refuse future versions, otherwise scan all intervals (with a
redundant emptiness branch present in the source). -/
def is_following (s : SocialNetwork) (follower_id followee_id : Nat)
    (version : Option Nat) : Bool :=
  let v := version.getD s.version
  if s.version < v then false
  else
    match s.follow_intervals (follower_id, followee_id) with
    | some l => if l.isEmpty then false else l.any (fun i => i.is_active v)
    | none => false

/-- `lib.rs::SocialNetwork::commit`: increment and return the version. -/
def commit (s : SocialNetwork) : Nat × SocialNetwork :=
  (s.version + 1, { s with version := s.version + 1 })

/-- `lib.rs::SocialNetwork::current_version`. -/
def current_version (s : SocialNetwork) : Nat := s.version

/-- Membership form of `lib.rs::get_followers` (the source collects the
set `is_followed[user]` into a `Vec`; we model the set by membership). -/
def mem_get_followers (s : SocialNetwork) (user_id other : Nat) : Bool :=
  s.is_followed user_id other

/-- Membership form of `lib.rs::get_followees` (collects `follows[user]`). -/
def mem_get_followees (s : SocialNetwork) (user_id other : Nat) : Bool :=
  s.follows user_id other

end Lib

namespace Snlib

/-- `snlib.rs::SocialNetwork::follow`.  Like `lib.rs::follow` but with the
reopen branch: a last interval closed exactly at the current version gets
its `follow_end` reset to `u64::MAX` and `Ok(false)` is returned. -/
def follow (s : SocialNetwork) (follower_id followee_id : Nat) :
    ROut Bool × SocialNetwork :=
  if follower_id = followee_id then (.err selfFollowMsg, s)
  else
    let s1 := addFollowEdge s follower_id followee_id
    match s1.follow_intervals (follower_id, followee_id) with
    | some intervals =>
      match intervals.getLast? with
      | some last =>
        if last.follow_end = OPEN then (.ok false, s1)
        else if last.follow_end = s1.version then
          (.ok false, setHist s1 follower_id followee_id
            (setLastEnd intervals OPEN))
        else
          (.ok true, setHist s1 follower_id followee_id
            (intervals ++ [FollowInterval.new s1.version]))
      | none => (.fatal emptyIntervalsMsg, s1)
    | none =>
      (.ok true, setHist s1 follower_id followee_id
        [FollowInterval.new s1.version])

/-- Panic message of the `assert!` in `snlib.rs::unfollow`. -/
def assertNonemptyMsg : String := "assertion failed: !follow_intervals.is_empty()"

/-- `snlib.rs::SocialNetwork::unfollow`.  After the self and membership
guards it removes the edge from both adjacency maps, then inspects the
intervals: empty vector panics (`assert!`); last `end == u64::MAX` closes
it at the current version (`Ok(true)`); last `end == version` reopens it to
`u64::MAX` (`Ok(true)`); anything else is `Err("Invalid follow interval")`
-- returned after the index mutation already happened. -/
def unfollow (s : SocialNetwork) (follower_id followee_id : Nat) :
    ROut Bool × SocialNetwork :=
  if follower_id = followee_id then (.err selfUnfollowMsg, s)
  else if s.follows follower_id followee_id = false then (.ok false, s)
  else
    let s1 := removeFollowEdge s follower_id followee_id
    match s1.follow_intervals (follower_id, followee_id) with
    | some l =>
      if l.isEmpty then (.fatal assertNonemptyMsg, s1)
      else
        match l.getLast? with
        | some interval =>
          if interval.follow_end = OPEN then
            (.ok true, setHist s1 follower_id followee_id
              (setLastEnd l s1.version))
          else if interval.follow_end = s1.version then
            (.ok true, setHist s1 follower_id followee_id (setLastEnd l OPEN))
          else (.err invalidIntervalMsg, s1)
        | none => (.err invalidIntervalMsg, s1)
    | none => (.ok false, s1)

/-- `snlib.rs::SocialNetwork::is_following` (no emptiness branch). -/
def is_following (s : SocialNetwork) (follower_id followee_id : Nat)
    (version : Option Nat) : Bool :=
  let v := version.getD s.version
  if s.version < v then false
  else
    match s.follow_intervals (follower_id, followee_id) with
    | some l => l.any (fun i => i.is_active v)
    | none => false

/-- `snlib.rs::SocialNetwork::commit`. -/
def commit (s : SocialNetwork) : Nat × SocialNetwork :=
  (s.version + 1, { s with version := s.version + 1 })

/-- `snlib.rs::SocialNetwork::current_version`. -/
def current_version (s : SocialNetwork) : Nat := s.version

/-- Membership form of `snlib.rs::get_followers`. -/
def mem_get_followers (s : SocialNetwork) (user_id other : Nat) : Bool :=
  s.is_followed user_id other

/-- Membership form of `snlib.rs::get_followees`. -/
def mem_get_followees (s : SocialNetwork) (user_id other : Nat) : Bool :=
  s.follows user_id other

end Snlib

/-- `FollowResponse` message of `server.rs` (fields as in the RPC shim). -/
structure FollowResponse where
  success : Bool
  error_message : String
  was_new_follow : Bool
deriving Repr, DecidableEq

/-- `UnfollowResponse` message of `server.rs`. -/
structure UnfollowResponse where
  success : Bool
  error_message : String
  was_unfollowed : Bool
deriving Repr, DecidableEq

namespace Server

/-- `server.rs` `follow` handler: a domain error becomes a normal response
with `success = false` plus the message, never a transport-level failure
(`server.rs` uses `crate::SocialNetwork`, i.e. the `lib.rs` variant). -/
def handleFollow (s : SocialNetwork) (follower_id followee_id : Nat) :
    ROut FollowResponse × SocialNetwork :=
  match Lib.follow s follower_id followee_id with
  | (.ok was_new_follow, s') =>
    (.ok { success := true, error_message := "", was_new_follow := was_new_follow }, s')
  | (.err e, s') =>
    (.ok { success := false, error_message := e, was_new_follow := false }, s')
  | (.fatal m, s') => (.fatal m, s')

/-- `server.rs` `unfollow` handler. -/
def handleUnfollow (s : SocialNetwork) (follower_id followee_id : Nat) :
    ROut UnfollowResponse × SocialNetwork :=
  match Lib.unfollow s follower_id followee_id with
  | (.ok was_unfollowed, s') =>
    (.ok { success := true, error_message := "", was_unfollowed := was_unfollowed }, s')
  | (.err e, s') =>
    (.ok { success := false, error_message := e, was_unfollowed := false }, s')
  | (.fatal m, s') => (.fatal m, s')

end Server

/-- One logical mutating call, for stating frame properties of `commit`. -/
inductive Op where
  | follow : Nat → Nat → Op
  | unfollow : Nat → Nat → Op
  | commit : Op
deriving Repr, DecidableEq

/-- Number of `commit` calls in a call sequence. -/
def countCommits : List Op → Nat
  | [] => 0
  | Op.commit :: rest => countCommits rest + 1
  | Op.follow _ _ :: rest => countCommits rest
  | Op.unfollow _ _ :: rest => countCommits rest

namespace Lib

/-- Apply one call to a `lib.rs` graph, discarding the returned value. -/
def step (s : SocialNetwork) : Op → SocialNetwork
  | Op.follow f g => (Lib.follow s f g).2
  | Op.unfollow f g => (Lib.unfollow s f g).2
  | Op.commit => (Lib.commit s).2

/-- Run a call sequence on a `lib.rs` graph. -/
def run : List Op → SocialNetwork → SocialNetwork
  | [], s => s
  | op :: rest, s => run rest (step s op)

end Lib

namespace Snlib

/-- Apply one call to a `snlib.rs` graph, discarding the returned value. -/
def step (s : SocialNetwork) : Op → SocialNetwork
  | Op.follow f g => (Snlib.follow s f g).2
  | Op.unfollow f g => (Snlib.unfollow s f g).2
  | Op.commit => (Snlib.commit s).2

/-- Run a call sequence on a `snlib.rs` graph. -/
def run : List Op → SocialNetwork → SocialNetwork
  | [], s => s
  | op :: rest, s => run rest (step s op)

end Snlib

/-- States reachable from `SocialNetwork::new` through `lib.rs` calls
(`is_following` and the getters are pure and do not change the state). -/
inductive LibReachable : SocialNetwork → Prop where
  | base : LibReachable SocialNetwork.new
  | follow (s : SocialNetwork) (f g : Nat) :
      LibReachable s → LibReachable (Lib.follow s f g).2
  | unfollow (s : SocialNetwork) (f g : Nat) :
      LibReachable s → LibReachable (Lib.unfollow s f g).2
  | commit (s : SocialNetwork) :
      LibReachable s → LibReachable (Lib.commit s).2

/-- States reachable from `SocialNetwork::new` through `snlib.rs` calls. -/
inductive SnReachable : SocialNetwork → Prop where
  | base : SnReachable SocialNetwork.new
  | follow (s : SocialNetwork) (f g : Nat) :
      SnReachable s → SnReachable (Snlib.follow s f g).2
  | unfollow (s : SocialNetwork) (f g : Nat) :
      SnReachable s → SnReachable (Snlib.unfollow s f g).2
  | commit (s : SocialNetwork) :
      SnReachable s → SnReachable (Snlib.commit s).2

/-- Well-formedness of one edge's interval list at current version `v`:
OPEN only in last position, closed intervals satisfy `start ≤ end ≤ v`,
all starts are `≤ v`, and ends precede the next start. -/
structure IntervalsWF (v : Nat) (l : List FollowInterval) : Prop where
  openOnlyLast : ∀ i ∈ l.dropLast, i.follow_end ≠ OPEN
  startsLe : ∀ i ∈ l, i.follow_start ≤ v
  closedLe : ∀ i ∈ l, i.follow_end ≠ OPEN → i.follow_end ≤ v
  closedWF : ∀ i ∈ l, i.follow_end ≠ OPEN → i.follow_start ≤ i.follow_end
  mono : List.Chain' (fun a b => a.follow_end ≤ b.follow_start) l

/-- Data-model invariant maintained by the `lib.rs` variant. -/
structure LibInv (s : SocialNetwork) : Prop where
  nonempty : ∀ p l, s.follow_intervals p = some l → l ≠ []
  noSelf : ∀ f, s.follow_intervals (f, f) = none
  indexed : ∀ f g, s.follow_intervals (f, g) ≠ none →
      s.follows f g = true ∧ s.is_followed g f = true
  wf : ∀ p l, s.follow_intervals p = some l → IntervalsWF s.version l

/-- Data-model invariant maintained by the `snlib.rs` variant: stored
interval lists are nonempty, and an edge present in the `follows` index has
an OPEN last interval. -/
structure SnInv (s : SocialNetwork) : Prop where
  nonempty : ∀ p l, s.follow_intervals p = some l → l ≠ []
  openOfIdx : ∀ f g, s.follows f g = true →
      lastOpenB (s.follow_intervals (f, g)) = true

/-- One edge's history evolves per call only by staying put, appending one
interval, or mutating the `follow_end` of its last interval. -/
def HistEvolves (old new : List FollowInterval) : Prop :=
  new = old ∨ (∃ i, new = old ++ [i]) ∨
    (∃ l i e, old = l ++ [i] ∧ new = l ++ [{ i with follow_end := e }])

/-- `lib.rs` graph after `follow(1,2)` from a fresh network. -/
def libAfterFollow : SocialNetwork := (Lib.follow SocialNetwork.new 1 2).2

/-- `lib.rs` graph after `follow(1,2); unfollow(1,2)` (same version 0). -/
def libAfterToggle : SocialNetwork := (Lib.unfollow libAfterFollow 1 2).2

/-- `lib.rs` graph after `follow(1,2); unfollow(1,2); commit()`. -/
def libAfterToggleCommit : SocialNetwork := (Lib.commit libAfterToggle).2

/-- `snlib.rs` graph after `follow(1,2)` from a fresh network. -/
def snAfterFollow : SocialNetwork := (Snlib.follow SocialNetwork.new 1 2).2

/-- `snlib.rs` graph after `follow(1,2); unfollow(1,2)` (same version 0). -/
def snAfterToggle : SocialNetwork := (Snlib.unfollow snAfterFollow 1 2).2

/-- `lib.rs` states of the spec's end-to-end scenario:
follow(1,2); commit; unfollow(1,2); commit; follow(1,2); commit. -/
def c7AfterFollow : SocialNetwork := (Lib.follow SocialNetwork.new 1 2).2

/-- Scenario state after the first commit (version 1). -/
def c7AfterCommit1 : SocialNetwork := (Lib.commit c7AfterFollow).2

/-- Scenario state after `unfollow(1,2)` at version 1. -/
def c7AfterUnfollow : SocialNetwork := (Lib.unfollow c7AfterCommit1 1 2).2

/-- Scenario state after the second commit (version 2). -/
def c7AfterCommit2 : SocialNetwork := (Lib.commit c7AfterUnfollow).2

/-- Scenario state after the refollow at version 2. -/
def c7AfterRefollow : SocialNetwork := (Lib.follow c7AfterCommit2 1 2).2

/-- Scenario final state after the third commit (version 3). -/
def c7Final : SocialNetwork := (Lib.commit c7AfterRefollow).2

@[simp]
theorem addFollowEdge_version (s : SocialNetwork) (f g : Nat) :
    (addFollowEdge s f g).version = s.version := rfl

@[simp]
theorem addFollowEdge_follow_intervals (s : SocialNetwork) (f g : Nat) :
    (addFollowEdge s f g).follow_intervals = s.follow_intervals := rfl

@[simp]
theorem removeFollowEdge_version (s : SocialNetwork) (f g : Nat) :
    (removeFollowEdge s f g).version = s.version := rfl

@[simp]
theorem removeFollowEdge_follow_intervals (s : SocialNetwork) (f g : Nat) :
    (removeFollowEdge s f g).follow_intervals = s.follow_intervals := rfl

@[simp]
theorem setHist_version (s : SocialNetwork) (f g : Nat) (l : List FollowInterval) :
    (setHist s f g l).version = s.version := rfl

@[simp]
theorem setHist_follows (s : SocialNetwork) (f g : Nat) (l : List FollowInterval) :
    (setHist s f g l).follows = s.follows := rfl

@[simp]
theorem setHist_is_followed (s : SocialNetwork) (f g : Nat) (l : List FollowInterval) :
    (setHist s f g l).is_followed = s.is_followed := rfl

theorem setHist_at (s : SocialNetwork) (f g : Nat) (l : List FollowInterval) :
    (setHist s f g l).follow_intervals (f, g) = some l := by
  simp [setHist]

theorem setHist_ne (s : SocialNetwork) (f g : Nat) (l : List FollowInterval)
    (p : Nat × Nat) (hp : p ≠ (f, g)) :
    (setHist s f g l).follow_intervals p = s.follow_intervals p := by
  simp [setHist, hp]

theorem addFollowEdge_follows_self (s : SocialNetwork) (f g : Nat) :
    (addFollowEdge s f g).follows f g = true := by
  simp [addFollowEdge]

theorem addFollowEdge_is_followed_self (s : SocialNetwork) (f g : Nat) :
    (addFollowEdge s f g).is_followed g f = true := by
  simp [addFollowEdge]

theorem addFollowEdge_follows_mono (s : SocialNetwork) (f g u v : Nat)
    (h : s.follows u v = true) : (addFollowEdge s f g).follows u v = true := by
  simp only [addFollowEdge]
  split <;> simp [h]

theorem addFollowEdge_is_followed_mono (s : SocialNetwork) (f g u v : Nat)
    (h : s.is_followed u v = true) :
    (addFollowEdge s f g).is_followed u v = true := by
  simp only [addFollowEdge]
  split <;> simp [h]

theorem removeFollowEdge_follows_of (s : SocialNetwork) (f g u v : Nat)
    (h : (removeFollowEdge s f g).follows u v = true) :
    s.follows u v = true ∧ ¬(u = f ∧ v = g) := by
  by_cases huv : u = f ∧ v = g
  · simp [removeFollowEdge, huv] at h
  · refine ⟨?_, huv⟩
    have h' := h
    simp only [removeFollowEdge, if_neg huv] at h'
    exact h'

theorem setLastEnd_concat (l : List FollowInterval) (i : FollowInterval) (e : Nat) :
    setLastEnd (l ++ [i]) e = l ++ [{ i with follow_end := e }] := by
  induction l with
  | nil => rfl
  | cons x xs ih =>
    cases xs with
    | nil => rfl
    | cons y ys =>
      show x :: setLastEnd ((y :: ys) ++ [i]) e = x :: ((y :: ys) ++ [{ i with follow_end := e }])
      rw [ih]

theorem isEmpty_concat {α : Type} (l : List α) (a : α) :
    (l ++ [a]).isEmpty = false := by
  cases l <;> rfl

theorem is_active_iff (i : FollowInterval) (v : Nat) (hv : v ≤ OPEN) :
    i.is_active v = true ↔
      i.follow_start ≤ v ∧ (i.follow_end = OPEN ∨ v ≤ i.follow_end) := by
  simp only [FollowInterval.is_active, Bool.and_eq_true, decide_eq_true_eq]
  constructor
  · rintro ⟨h1, h2⟩
    exact ⟨h1, Or.inr h2⟩
  · rintro ⟨h1, h2 | h2⟩
    · exact ⟨h1, h2 ▸ hv⟩
    · exact ⟨h1, h2⟩

/-- C1: `is_following(follower, followee, version)` defaults the version
argument to the current version; returns `false` whenever the requested
version is strictly greater than the current version, regardless of edge
history; otherwise returns `true` iff some interval of the edge's history
satisfies `start ≤ version ≤ end` with an OPEN end treated as +infinity;
an edge with no recorded history yields `false` at every version.  (The
`v ≤ OPEN` hypothesis records that a `u64` query value cannot exceed
`u64::MAX`.)  The `lib.rs` and `snlib.rs` readers agree everywhere. -/
theorem C1_is_following_semantics (s : SocialNetwork) (f g v : Nat)
    (hv : v ≤ OPEN) :
    Lib.is_following s f g none = Lib.is_following s f g (some s.version) ∧
    (s.version < v → Lib.is_following s f g (some v) = false) ∧
    (v ≤ s.version →
      (Lib.is_following s f g (some v) = true ↔
        ∃ i ∈ histListOf s f g,
          i.follow_start ≤ v ∧ (i.follow_end = OPEN ∨ v ≤ i.follow_end))) ∧
    (s.follow_intervals (f, g) = none →
      ∀ w : Option Nat, Lib.is_following s f g w = false) ∧
    (∀ w : Option Nat, Lib.is_following s f g w = Snlib.is_following s f g w) := by
  refine ⟨rfl, ?_, ?_, ?_, ?_⟩
  · intro hfut
    simp [Lib.is_following, hfut]
  · intro hle
    have hnl : ¬ s.version < v := not_lt.mpr hle
    simp only [Lib.is_following, Option.getD_some, if_neg hnl]
    cases hE : s.follow_intervals (f, g) with
    | none => simp [histListOf, hE]
    | some l =>
      cases l with
      | nil => simp [histListOf, hE]
      | cons x xs =>
        simp only [List.isEmpty_cons, if_neg Bool.false_ne_true, histListOf, hE,
          Option.getD_some, List.any_eq_true]
        constructor
        · rintro ⟨i, hi, hact⟩
          exact ⟨i, hi, (is_active_iff i v hv).mp hact⟩
        · rintro ⟨i, hi, hprop⟩
          exact ⟨i, hi, (is_active_iff i v hv).mpr hprop⟩
  · intro hE w
    cases w with
    | none => simp [Lib.is_following, hE]
    | some u => simp [Lib.is_following, hE]
  · intro w
    simp only [Lib.is_following, Snlib.is_following]
    cases hE : s.follow_intervals (f, g) with
    | none => rfl
    | some l =>
      cases l with
      | nil => simp
      | cons x xs => simp

/-- Witness for C1 at the state reached by `follow(1,2)` on `lib.rs`:
instantiates the theorem at version 0 and extracts concrete values. -/
theorem C1_witness :
    Lib.is_following libAfterFollow 1 2 none =
      Lib.is_following libAfterFollow 1 2 (some libAfterFollow.version) ∧
    Lib.is_following libAfterFollow 1 2 (some 0) = true := by
  have h := C1_is_following_semantics libAfterFollow 1 2 0 (by decide)
  refine ⟨h.1, ?_⟩
  exact (h.2.2.1 (by decide)).mpr (by decide)

theorem lib_follow_ne_self_err (s : SocialNetwork) (f g : Nat) (hfg : f ≠ g) :
    (Lib.follow s f g).1 ≠ ROut.err selfFollowMsg := by
  simp only [Lib.follow, if_neg hfg]
  split
  · split
    · split <;> simp
    · simp
  · simp

theorem lib_unfollow_ne_self_err (s : SocialNetwork) (f g : Nat) (hfg : f ≠ g) :
    (Lib.unfollow s f g).1 ≠ ROut.err selfUnfollowMsg := by
  simp only [Lib.unfollow, if_neg hfg]
  split
  · simp
  · split
    · split
      · simp
      · split
        · split <;> simp
        · simp
    · simp

theorem snlib_follow_ne_self_err (s : SocialNetwork) (f g : Nat) (hfg : f ≠ g) :
    (Snlib.follow s f g).1 ≠ ROut.err selfFollowMsg := by
  simp only [Snlib.follow, if_neg hfg]
  split
  · split
    · split
      · simp
      · split <;> simp
    · simp
  · simp

theorem snlib_unfollow_ne_self_err (s : SocialNetwork) (f g : Nat) (hfg : f ≠ g) :
    (Snlib.unfollow s f g).1 ≠ ROut.err selfUnfollowMsg := by
  simp only [Snlib.unfollow, if_neg hfg]
  split
  · simp
  · split
    · split
      · simp
      · split
        · split
          · simp
          · split
            · simp
            · simp only [ne_eq, Prod.fst]
              intro h
              have : invalidIntervalMsg = selfUnfollowMsg := by
                injection h
              exact absurd this (by decide)
        · simp only [ne_eq, Prod.fst]
          intro h
          have : invalidIntervalMsg = selfUnfollowMsg := by
            injection h
          exact absurd this (by decide)
    · simp

/-- C6: `follow(a, a)` and `unfollow(a, a)` fail with the self-relation
error in both variants; for distinct users neither call ever produces that
error; and the `server.rs` shim surfaces it as a normal response with
`success = false` plus the message, never as a transport failure. -/
theorem C6_self_relation (s : SocialNetwork) (a f g : Nat) (hfg : f ≠ g) :
    Lib.follow s a a = (ROut.err selfFollowMsg, s) ∧
    Lib.unfollow s a a = (ROut.err selfUnfollowMsg, s) ∧
    Snlib.follow s a a = (ROut.err selfFollowMsg, s) ∧
    Snlib.unfollow s a a = (ROut.err selfUnfollowMsg, s) ∧
    (Lib.follow s f g).1 ≠ ROut.err selfFollowMsg ∧
    (Lib.unfollow s f g).1 ≠ ROut.err selfUnfollowMsg ∧
    (Snlib.follow s f g).1 ≠ ROut.err selfFollowMsg ∧
    (Snlib.unfollow s f g).1 ≠ ROut.err selfUnfollowMsg ∧
    Server.handleFollow s a a =
      (ROut.ok { success := false, error_message := selfFollowMsg,
                 was_new_follow := false }, s) ∧
    Server.handleUnfollow s a a =
      (ROut.ok { success := false, error_message := selfUnfollowMsg,
                 was_unfollowed := false }, s) := by
  have hf : Lib.follow s a a = (ROut.err selfFollowMsg, s) := by
    simp [Lib.follow]
  have hu : Lib.unfollow s a a = (ROut.err selfUnfollowMsg, s) := by
    simp [Lib.unfollow]
  refine ⟨hf, hu, by simp [Snlib.follow], by simp [Snlib.unfollow],
    lib_follow_ne_self_err s f g hfg, lib_unfollow_ne_self_err s f g hfg,
    snlib_follow_ne_self_err s f g hfg, snlib_unfollow_ne_self_err s f g hfg,
    ?_, ?_⟩
  · simp [Server.handleFollow, hf]
  · simp [Server.handleUnfollow, hu]

/-- Witness for C6 at a fresh network with users 1 and 2. -/
theorem C6_witness :
    Lib.follow SocialNetwork.new 1 1 = (ROut.err selfFollowMsg, SocialNetwork.new) ∧
    (Lib.follow SocialNetwork.new 1 2).1 ≠ ROut.err selfFollowMsg := by
  have h := C6_self_relation SocialNetwork.new 1 1 2 (by decide)
  exact ⟨h.1, h.2.2.2.2.1⟩

/-- C7 counterexample: after the version-2 refollow and the final commit,
the claimed final value `is_following(1,2,Some(2)) = false` fails on the
code: the interval `{start: 2, end: OPEN}` created by the refollow covers
version 2, so the query returns `true`. -/
theorem C7_counterexample :
    ¬ (Lib.is_following c7Final 1 2 (some 2) = false) := by decide

/-- C7 (amended): the end-to-end scenario on `lib.rs` holds exactly as
claimed except for the very last check: `follow(1,2)` returns true,
`commit()` returns 1, versions 0 and 1 read true, `unfollow(1,2)` returns
true and version 1 still reads true, `commit()` returns 2 and version 2
reads false at that point, the refollow returns true and `commit()`
returns 3; in the final state versions 0, 1 and 3 read true and version 2
reads true as well (not false), because the refollow at uncommitted
version 2 created the interval `{start: 2, end: OPEN}`. -/
theorem C7_amended_scenario :
    (Lib.follow SocialNetwork.new 1 2).1 = ROut.ok true ∧
    (Lib.commit c7AfterFollow).1 = 1 ∧
    Lib.is_following c7AfterCommit1 1 2 (some 0) = true ∧
    Lib.is_following c7AfterCommit1 1 2 (some 1) = true ∧
    (Lib.unfollow c7AfterCommit1 1 2).1 = ROut.ok true ∧
    Lib.is_following c7AfterUnfollow 1 2 (some 1) = true ∧
    (Lib.commit c7AfterUnfollow).1 = 2 ∧
    Lib.is_following c7AfterCommit2 1 2 (some 2) = false ∧
    (Lib.follow c7AfterCommit2 1 2).1 = ROut.ok true ∧
    (Lib.commit c7AfterRefollow).1 = 3 ∧
    Lib.is_following c7Final 1 2 (some 0) = true ∧
    Lib.is_following c7Final 1 2 (some 1) = true ∧
    Lib.is_following c7Final 1 2 (some 2) = true ∧
    Lib.is_following c7Final 1 2 (some 3) = true := by decide

theorem lib_follow_version (s : SocialNetwork) (f g : Nat) :
    (Lib.follow s f g).2.version = s.version := by
  simp only [Lib.follow]
  split
  · rfl
  · split
    · split
      · split <;> rfl
      · rfl
    · rfl

theorem lib_unfollow_version (s : SocialNetwork) (f g : Nat) :
    (Lib.unfollow s f g).2.version = s.version := by
  simp only [Lib.unfollow]
  split
  · rfl
  · split
    · rfl
    · split
      · split
        · rfl
        · split
          · split <;> rfl
          · rfl
      · rfl

theorem snlib_follow_version (s : SocialNetwork) (f g : Nat) :
    (Snlib.follow s f g).2.version = s.version := by
  simp only [Snlib.follow]
  split
  · rfl
  · split
    · split
      · split
        · rfl
        · split <;> rfl
      · rfl
    · rfl

theorem snlib_unfollow_version (s : SocialNetwork) (f g : Nat) :
    (Snlib.unfollow s f g).2.version = s.version := by
  simp only [Snlib.unfollow]
  split
  · rfl
  · split
    · rfl
    · split
      · split
        · rfl
        · split
          · split
            · rfl
            · split <;> rfl
          · rfl
      · rfl

theorem lib_run_version (ops : List Op) (s : SocialNetwork) :
    (Lib.run ops s).version = s.version + countCommits ops := by
  induction ops generalizing s with
  | nil => simp [Lib.run, countCommits]
  | cons op rest ih =>
    cases op with
    | follow f g =>
      simp [Lib.run, Lib.step, countCommits, ih, lib_follow_version]
    | unfollow f g =>
      simp [Lib.run, Lib.step, countCommits, ih, lib_unfollow_version]
    | commit =>
      simp only [Lib.run, Lib.step, countCommits, ih, Lib.commit]
      omega

theorem snlib_run_version (ops : List Op) (s : SocialNetwork) :
    (Snlib.run ops s).version = s.version + countCommits ops := by
  induction ops generalizing s with
  | nil => simp [Snlib.run, countCommits]
  | cons op rest ih =>
    cases op with
    | follow f g =>
      simp [Snlib.run, Snlib.step, countCommits, ih, snlib_follow_version]
    | unfollow f g =>
      simp [Snlib.run, Snlib.step, countCommits, ih, snlib_unfollow_version]
    | commit =>
      simp only [Snlib.run, Snlib.step, countCommits, ih, Snlib.commit]
      omega

/-- C8: the version counter starts at 0; `commit` is the only call that
changes it, incrementing by exactly 1 and returning the new value;
`follow` and `unfollow` leave it unchanged in both variants (`is_following`,
the getters and `current_version` are pure reads); hence running any call
sequence containing `n` commits from a fresh graph ends with
`current_version() = n`. -/
theorem C8_version_counter :
    SocialNetwork.new.version = 0 ∧
    (∀ s : SocialNetwork,
      (Lib.commit s).1 = s.version + 1 ∧ (Lib.commit s).2.version = s.version + 1 ∧
      (Snlib.commit s).1 = s.version + 1 ∧ (Snlib.commit s).2.version = s.version + 1) ∧
    (∀ (s : SocialNetwork) (f g : Nat),
      (Lib.follow s f g).2.version = s.version ∧
      (Lib.unfollow s f g).2.version = s.version ∧
      (Snlib.follow s f g).2.version = s.version ∧
      (Snlib.unfollow s f g).2.version = s.version) ∧
    (∀ ops : List Op,
      Lib.current_version (Lib.run ops SocialNetwork.new) = countCommits ops ∧
      Snlib.current_version (Snlib.run ops SocialNetwork.new) = countCommits ops) := by
  refine ⟨rfl, fun s => ⟨rfl, rfl, rfl, rfl⟩, ?_, ?_⟩
  · intro s f g
    exact ⟨lib_follow_version s f g, lib_unfollow_version s f g,
      snlib_follow_version s f g, snlib_unfollow_version s f g⟩
  · intro ops
    constructor
    · show (Lib.run ops SocialNetwork.new).version = countCommits ops
      rw [lib_run_version]
      simp [SocialNetwork.new]
    · show (Snlib.run ops SocialNetwork.new).version = countCommits ops
      rw [snlib_run_version]
      simp [SocialNetwork.new]

/-- C3 counterexample: on `lib.rs`, in the reachable state after
`follow(1,2); unfollow(1,2)` (last interval closed at the current version
0), `follow(1,2)` does not reopen the interval and return false as claimed:
it appends a second interval and returns true. -/
theorem C3_counterexample :
    libAfterToggle.follows 1 2 = true ∧
    libAfterToggle.version = 0 ∧
    libAfterToggle.follow_intervals (1, 2) = some [⟨0, 0⟩] ∧
    (Lib.follow libAfterToggle 1 2).1 = ROut.ok true ∧
    (Lib.follow libAfterToggle 1 2).2.follow_intervals (1, 2) =
      some [⟨0, 0⟩, ⟨0, OPEN⟩] ∧
    ¬ ((Lib.follow libAfterToggle 1 2).1 = ROut.ok false) := by decide

/-- C3 (amended): the claimed trichotomy is exactly the behavior of the
`snlib.rs` variant of `follow`: a last interval closed at the current
version is reopened in place (end reset to OPEN, returns false, nothing
appended), so unfollow-then-follow inside one version window leaves a
single continuous interval; a last OPEN interval returns false; otherwise
a fresh interval `{start: current_version, end: OPEN}` is appended and
true is returned.  The `lib.rs` variant instead always appends (see the
counterexample). -/
theorem C3_amended_follow (s : SocialNetwork) (f g : Nat) (hfg : f ≠ g) :
    (∀ l i, s.follow_intervals (f, g) = some (l ++ [i]) →
      i.follow_end = OPEN →
      Snlib.follow s f g = (ROut.ok false, addFollowEdge s f g)) ∧
    (∀ l i, s.follow_intervals (f, g) = some (l ++ [i]) →
      i.follow_end ≠ OPEN → i.follow_end = s.version →
      Snlib.follow s f g =
        (ROut.ok false, setHist (addFollowEdge s f g) f g
          (l ++ [{ i with follow_end := OPEN }]))) ∧
    (∀ l i, s.follow_intervals (f, g) = some (l ++ [i]) →
      i.follow_end ≠ OPEN → i.follow_end ≠ s.version →
      Snlib.follow s f g =
        (ROut.ok true, setHist (addFollowEdge s f g) f g
          ((l ++ [i]) ++ [FollowInterval.new s.version]))) ∧
    (s.follow_intervals (f, g) = none →
      Snlib.follow s f g =
        (ROut.ok true, setHist (addFollowEdge s f g) f g
          [FollowInterval.new s.version])) ∧
    (∀ l i, s.follow_intervals (f, g) = some (l ++ [i]) →
      i.follow_end = OPEN → s.follows f g = true →
      histListOf (Snlib.follow (Snlib.unfollow s f g).2 f g).2 f g = l ++ [i] ∧
      (Snlib.follow (Snlib.unfollow s f g).2 f g).1 = ROut.ok false) := by
  refine ⟨?_, ?_, ?_, ?_, ?_⟩
  · intro l i hE hOpen
    simp [Snlib.follow, if_neg hfg, hE, List.getLast?_concat, hOpen]
  · intro l i hE hne hv
    have hvne : s.version ≠ OPEN := hv ▸ hne
    simp [Snlib.follow, if_neg hfg, hE, List.getLast?_concat, hne, hv, hvne,
      setLastEnd_concat]
  · intro l i hE hne hv
    simp [Snlib.follow, if_neg hfg, hE, List.getLast?_concat, hne, hv]
  · intro hE
    simp [Snlib.follow, if_neg hfg, hE]
  · intro l i hE hOpen hidx
    have hcoll : ({ i with follow_end := OPEN } : FollowInterval) = i := by
      rw [← hOpen]
    have hu : Snlib.unfollow s f g =
        (ROut.ok true, setHist (removeFollowEdge s f g) f g
          (l ++ [{ i with follow_end := s.version }])) := by
      simp [Snlib.unfollow, if_neg hfg, hidx, hE, isEmpty_concat,
        List.getLast?_concat, hOpen, setLastEnd_concat]
    rw [hu]
    by_cases hver : s.version = OPEN
    · constructor
      · simp [Snlib.follow, if_neg hfg, setHist_at, List.getLast?_concat,
          hver, histListOf, hcoll, hOpen]
      · simp [Snlib.follow, if_neg hfg, setHist_at, List.getLast?_concat,
          hver, hOpen]
    · constructor
      · simp [Snlib.follow, if_neg hfg, setHist_at, List.getLast?_concat,
          hver, setLastEnd_concat, histListOf, hcoll]
      · simp [Snlib.follow, if_neg hfg, setHist_at, List.getLast?_concat,
          hver, setLastEnd_concat]

/-- Witness for C3: the reopen branch taken at the concrete `snlib.rs`
state after `follow(1,2); unfollow(1,2)` (interval closed at version 0). -/
theorem C3_witness :
    Snlib.follow snAfterToggle 1 2 =
      (ROut.ok false, setHist (addFollowEdge snAfterToggle 1 2) 1 2
        ([] ++ [{ (⟨0, 0⟩ : FollowInterval) with follow_end := OPEN }])) :=
  (C3_amended_follow snAfterToggle 1 2 (by decide)).2.1 [] ⟨0, 0⟩
    (by decide) (by decide) (by decide)

/-- C4 counterexample: on `lib.rs`, in the reachable state after
`follow(1,2); unfollow(1,2)` the edge is still listed by the adjacency
index and the last interval's end equals the current version 0, yet a
second `unfollow(1,2)` does not reopen the interval to OPEN as claimed: it
returns false and leaves the interval closed. -/
theorem C4_counterexample :
    libAfterToggle.follows 1 2 = true ∧
    libAfterToggle.version = 0 ∧
    libAfterToggle.follow_intervals (1, 2) = some [⟨0, 0⟩] ∧
    (Lib.unfollow libAfterToggle 1 2).1 = ROut.ok false ∧
    (Lib.unfollow libAfterToggle 1 2).2.follow_intervals (1, 2) = some [⟨0, 0⟩] ∧
    (Lib.unfollow libAfterToggle 1 2).2.follow_intervals (1, 2) ≠
      some [⟨0, OPEN⟩] := by decide

/-- C4 (amended): the claimed behavior is exactly that of the `snlib.rs`
variant of `unfollow` on a currently-indexed edge: a last OPEN interval is
closed at the current version, and a last interval whose end already
equals the current version is reopened to OPEN (both return true; the
index entry is removed in both directions first).  The `lib.rs` variant
has no reopen case (see the counterexample). -/
theorem C4_amended_unfollow (s : SocialNetwork) (f g : Nat) (hfg : f ≠ g)
    (hidx : s.follows f g = true) :
    (∀ l i, s.follow_intervals (f, g) = some (l ++ [i]) →
      i.follow_end = OPEN →
      Snlib.unfollow s f g =
        (ROut.ok true, setHist (removeFollowEdge s f g) f g
          (l ++ [{ i with follow_end := s.version }]))) ∧
    (∀ l i, s.follow_intervals (f, g) = some (l ++ [i]) →
      i.follow_end ≠ OPEN → i.follow_end = s.version →
      Snlib.unfollow s f g =
        (ROut.ok true, setHist (removeFollowEdge s f g) f g
          (l ++ [{ i with follow_end := OPEN }]))) := by
  constructor
  · intro l i hE hOpen
    simp [Snlib.unfollow, if_neg hfg, hidx, hE, isEmpty_concat,
      List.getLast?_concat, hOpen, setLastEnd_concat]
  · intro l i hE hne hv
    have hvne : s.version ≠ OPEN := hv ▸ hne
    simp [Snlib.unfollow, if_neg hfg, hidx, hE, isEmpty_concat,
      List.getLast?_concat, hne, hv, hvne, setLastEnd_concat]

/-- Witness for C4: closing the open interval of the concrete `snlib.rs`
state after `follow(1,2)`. -/
theorem C4_witness :
    Snlib.unfollow snAfterFollow 1 2 =
      (ROut.ok true, setHist (removeFollowEdge snAfterFollow 1 2) 1 2
        ([] ++ [{ (⟨0, OPEN⟩ : FollowInterval) with
                  follow_end := snAfterFollow.version }])) :=
  (C4_amended_unfollow snAfterFollow 1 2 (by decide) (by decide)).1 [] ⟨0, OPEN⟩
    (by decide) (by decide)

/-- C2 (code bug in `lib.rs`): after the successful `unfollow(1,2)` in the
reachable state following `follow(1,2)`, the `lib.rs` adjacency index still
lists the edge in both directions although the last interval of the edge's
history is closed, violating the claimed invariant (and `lib.rs`'s own
`test_unfollow`, which expects the follower count to drop to 0).  The
`snlib.rs` variant removes the edge from both directions as the claim
states. -/
theorem C2_lib_unfollow_keeps_index :
    (Lib.unfollow libAfterFollow 1 2).1 = ROut.ok true ∧
    Lib.mem_get_followees libAfterToggle 1 2 = true ∧
    Lib.mem_get_followers libAfterToggle 2 1 = true ∧
    lastOpenB (libAfterToggle.follow_intervals (1, 2)) = false ∧
    (Snlib.unfollow snAfterFollow 1 2).1 = ROut.ok true ∧
    Snlib.mem_get_followees snAfterToggle 1 2 = false ∧
    Snlib.mem_get_followers snAfterToggle 2 1 = false ∧
    lastOpenB (snAfterToggle.follow_intervals (1, 2)) = false := by decide

theorem IntervalsWF.mono_version {v v' : Nat} {l : List FollowInterval}
    (h : IntervalsWF v l) (hv : v ≤ v') : IntervalsWF v' l :=
  ⟨h.openOnlyLast,
   fun i hi => le_trans (h.startsLe i hi) hv,
   fun i hi hne => le_trans (h.closedLe i hi hne) hv,
   h.closedWF, h.mono⟩

theorem intervalsWF_singleton (v : Nat) :
    IntervalsWF v [FollowInterval.new v] := by
  refine ⟨?_, ?_, ?_, ?_, ?_⟩
  · intro i hi
    simp [List.dropLast] at hi
  · intro i hi
    rw [List.mem_singleton] at hi
    subst hi
    exact le_refl v
  · intro i hi hne
    rw [List.mem_singleton] at hi
    subst hi
    exact absurd rfl hne
  · intro i hi hne
    rw [List.mem_singleton] at hi
    subst hi
    exact absurd rfl hne
  · exact List.chain'_singleton _

theorem intervalsWF_append_new (v : Nat) (l : List FollowInterval)
    (i : FollowInterval) (h : IntervalsWF v (l ++ [i]))
    (hne : i.follow_end ≠ OPEN) :
    IntervalsWF v ((l ++ [i]) ++ [FollowInterval.new v]) := by
  obtain ⟨h1, h2, h3, h4, h5⟩ := h
  refine ⟨?_, ?_, ?_, ?_, ?_⟩
  · intro j hj
    rw [List.dropLast_concat] at hj
    rcases List.mem_append.mp hj with hjl | hji
    · exact h1 j (by rw [List.dropLast_concat]; exact hjl)
    · rw [List.mem_singleton] at hji
      subst hji
      exact hne
  · intro j hj
    rcases List.mem_append.mp hj with hjl | hji
    · exact h2 j hjl
    · rw [List.mem_singleton] at hji
      subst hji
      exact le_refl v
  · intro j hj hjne
    rcases List.mem_append.mp hj with hjl | hji
    · exact h3 j hjl hjne
    · rw [List.mem_singleton] at hji
      subst hji
      exact absurd rfl hjne
  · intro j hj hjne
    rcases List.mem_append.mp hj with hjl | hji
    · exact h4 j hjl hjne
    · rw [List.mem_singleton] at hji
      subst hji
      exact absurd rfl hjne
  · refine List.Chain'.append h5 (List.chain'_singleton _) ?_
    intro x hx y hy
    rw [List.getLast?_concat] at hx
    rw [List.head?_cons] at hy
    have hxi : x = i := by
      cases hx
      rfl
    have hyn : y = FollowInterval.new v := by
      cases hy
      rfl
    rw [hxi, hyn]
    exact h3 i (by simp) hne

theorem intervalsWF_close (v : Nat) (l : List FollowInterval)
    (i : FollowInterval) (h : IntervalsWF v (l ++ [i])) :
    IntervalsWF v (l ++ [{ i with follow_end := v }]) := by
  obtain ⟨h1, h2, h3, h4, h5⟩ := h
  have hmemi : i ∈ l ++ [i] := (by simp)
  refine ⟨?_, ?_, ?_, ?_, ?_⟩
  · intro j hj
    rw [List.dropLast_concat] at hj
    exact h1 j (by rw [List.dropLast_concat]; exact hj)
  · intro j hj
    rcases List.mem_append.mp hj with hjl | hji
    · exact h2 j (List.mem_append_left _ hjl)
    · rw [List.mem_singleton] at hji
      subst hji
      exact h2 i hmemi
  · intro j hj hjne
    rcases List.mem_append.mp hj with hjl | hji
    · exact h3 j (List.mem_append_left _ hjl) hjne
    · rw [List.mem_singleton] at hji
      subst hji
      exact le_refl v
  · intro j hj hjne
    rcases List.mem_append.mp hj with hjl | hji
    · exact h4 j (List.mem_append_left _ hjl) hjne
    · rw [List.mem_singleton] at hji
      subst hji
      exact h2 i hmemi
  · obtain ⟨c1, _, clink⟩ := List.chain'_append.mp h5
    refine List.Chain'.append c1 (List.chain'_singleton _) ?_
    intro x hx y hy
    rw [List.head?_cons] at hy
    have hyn : y = { i with follow_end := v } := by
      cases hy
      rfl
    subst hyn
    exact clink x hx i (by rw [List.head?_cons]; rfl)

theorem libInv_addFollowEdge (s : SocialNetwork) (f g : Nat) (h : LibInv s) :
    LibInv (addFollowEdge s f g) := by
  obtain ⟨h1, h2, h3, h4⟩ := h
  refine ⟨fun p l hp => h1 p l hp, fun a => h2 a, ?_, fun p l hp => h4 p l hp⟩
  intro a b hne
  obtain ⟨hf, hb⟩ := h3 a b hne
  exact ⟨addFollowEdge_follows_mono s f g a b hf,
    addFollowEdge_is_followed_mono s f g b a hb⟩

theorem libInv_setHist (s : SocialNetwork) (f g : Nat)
    (l : List FollowInterval) (h : LibInv s) (hfg : f ≠ g) (hl : l ≠ [])
    (hidx : s.follows f g = true ∧ s.is_followed g f = true)
    (hwf : IntervalsWF s.version l) :
    LibInv (setHist s f g l) := by
  obtain ⟨h1, h2, h3, h4⟩ := h
  refine ⟨?_, ?_, ?_, ?_⟩
  · intro p l' hp
    by_cases hpe : p = (f, g)
    · subst hpe
      rw [setHist_at] at hp
      injection hp with hp
      exact hp ▸ hl
    · rw [setHist_ne s f g l p hpe] at hp
      exact h1 p l' hp
  · intro a
    by_cases hae : ((a, a) : Nat × Nat) = (f, g)
    · obtain ⟨e1, e2⟩ := Prod.ext_iff.mp hae
      exact absurd (e1.symm.trans e2) hfg
    · rw [setHist_ne s f g l _ hae]
      exact h2 a
  · intro a b hne
    by_cases hae : ((a, b) : Nat × Nat) = (f, g)
    · obtain ⟨e1, e2⟩ := Prod.ext_iff.mp hae
      subst e1
      subst e2
      exact hidx
    · rw [setHist_ne s f g l _ hae] at hne
      exact h3 a b hne
  · intro p l' hp
    by_cases hpe : p = (f, g)
    · subst hpe
      rw [setHist_at] at hp
      injection hp with hp
      subst hp
      exact hwf
    · rw [setHist_ne s f g l p hpe] at hp
      exact h4 p l' hp

theorem libInv_follow (s : SocialNetwork) (f g : Nat) (h : LibInv s) :
    LibInv (Lib.follow s f g).2 := by
  by_cases hfg : f = g
  · have hres : (Lib.follow s f g).2 = s := by
      simp [Lib.follow, hfg]
    rw [hres]
    exact h
  · have hA : LibInv (addFollowEdge s f g) := libInv_addFollowEdge s f g h
    have hAidx : (addFollowEdge s f g).follows f g = true ∧
        (addFollowEdge s f g).is_followed g f = true :=
      ⟨addFollowEdge_follows_self s f g, addFollowEdge_is_followed_self s f g⟩
    rcases hE : s.follow_intervals (f, g) with _ | l
    · have hres : (Lib.follow s f g).2 =
          setHist (addFollowEdge s f g) f g [FollowInterval.new s.version] := by
        simp [Lib.follow, if_neg hfg, hE]
      rw [hres]
      exact libInv_setHist _ f g _ hA hfg (by simp) hAidx
        (intervalsWF_singleton s.version)
    · have hlne : l ≠ [] := h.nonempty _ l hE
      rcases l.eq_nil_or_concat' with rfl | ⟨l', i, rfl⟩
      · exact absurd rfl hlne
      · by_cases hOpen : i.follow_end = OPEN
        · have hres : (Lib.follow s f g).2 = addFollowEdge s f g := by
            simp [Lib.follow, if_neg hfg, hE, List.getLast?_concat, hOpen]
          rw [hres]
          exact hA
        · have hres : (Lib.follow s f g).2 =
              setHist (addFollowEdge s f g) f g
                ((l' ++ [i]) ++ [FollowInterval.new s.version]) := by
            simp [Lib.follow, if_neg hfg, hE, List.getLast?_concat, hOpen]
          rw [hres]
          exact libInv_setHist _ f g _ hA hfg (by simp) hAidx
            (intervalsWF_append_new s.version l' i (h.wf _ _ hE) hOpen)

theorem libInv_unfollow (s : SocialNetwork) (f g : Nat) (h : LibInv s) :
    LibInv (Lib.unfollow s f g).2 := by
  by_cases hfg : f = g
  · have hres : (Lib.unfollow s f g).2 = s := by
      simp [Lib.unfollow, hfg]
    rw [hres]
    exact h
  · by_cases hidx : s.follows f g = true
    · rcases hE : s.follow_intervals (f, g) with _ | l
      · have hres : (Lib.unfollow s f g).2 = s := by
          simp [Lib.unfollow, if_neg hfg, hidx, hE]
        rw [hres]
        exact h
      · rcases l.eq_nil_or_concat' with rfl | ⟨l', i, rfl⟩
        · have hres : (Lib.unfollow s f g).2 = s := by
            simp [Lib.unfollow, if_neg hfg, hidx, hE]
          rw [hres]
          exact h
        · by_cases hOpen : i.follow_end = OPEN
          · have hres : (Lib.unfollow s f g).2 =
                setHist s f g (l' ++ [{ i with follow_end := s.version }]) := by
              simp [Lib.unfollow, if_neg hfg, hidx, hE, isEmpty_concat,
                List.getLast?_concat, hOpen, setLastEnd_concat]
            rw [hres]
            refine libInv_setHist s f g _ h hfg (by simp) ?_
              (intervalsWF_close s.version l' i (h.wf _ _ hE))
            exact h.indexed f g (by rw [hE]; exact Option.some_ne_none _)
          · have hres : (Lib.unfollow s f g).2 = s := by
              simp [Lib.unfollow, if_neg hfg, hidx, hE, isEmpty_concat,
                List.getLast?_concat, hOpen]
            rw [hres]
            exact h
    · have hidx' : s.follows f g = false := by
        simpa using hidx
      have hres : (Lib.unfollow s f g).2 = s := by
        simp [Lib.unfollow, if_neg hfg, hidx']
      rw [hres]
      exact h

theorem libInv_commit (s : SocialNetwork) (h : LibInv s) :
    LibInv (Lib.commit s).2 := by
  obtain ⟨h1, h2, h3, h4⟩ := h
  exact ⟨fun p l hp => h1 p l hp, fun a => h2 a, fun a b hne => h3 a b hne,
    fun p l hp => (h4 p l hp).mono_version (Nat.le_succ _)⟩

theorem libReachable_inv (s : SocialNetwork) (h : LibReachable s) : LibInv s := by
  induction h with
  | base =>
    refine ⟨?_, ?_, ?_, ?_⟩ <;> intro p
    · intro l hp
      simp [SocialNetwork.new] at hp
    · rfl
    · intro b hne
      exact absurd rfl hne
    · intro l hp
      simp [SocialNetwork.new] at hp
  | follow t f g _ ih => exact libInv_follow t f g ih
  | unfollow t f g _ ih => exact libInv_unfollow t f g ih
  | commit t _ ih => exact libInv_commit t ih

theorem histEvolves_refl (l : List FollowInterval) : HistEvolves l l := Or.inl rfl

theorem lib_follow_hist_ne (s : SocialNetwork) (f g : Nat) (hfg : f ≠ g)
    (p : Nat × Nat) (hp : p ≠ (f, g)) :
    (Lib.follow s f g).2.follow_intervals p = s.follow_intervals p := by
  simp only [Lib.follow, if_neg hfg]
  split
  · split
    · split
      · rfl
      · exact setHist_ne _ f g _ p hp
    · rfl
  · exact setHist_ne _ f g _ p hp

theorem lib_unfollow_hist_ne (s : SocialNetwork) (f g : Nat)
    (p : Nat × Nat) (hp : p ≠ (f, g)) :
    (Lib.unfollow s f g).2.follow_intervals p = s.follow_intervals p := by
  simp only [Lib.unfollow]
  split
  · rfl
  · split
    · rfl
    · split
      · split
        · rfl
        · split
          · split
            · exact setHist_ne _ f g _ p hp
            · rfl
          · rfl
      · rfl

theorem lib_follow_histEvolves (s : SocialNetwork) (f g u w : Nat) :
    HistEvolves (histListOf s u w) (histListOf (Lib.follow s f g).2 u w) := by
  by_cases hfg : f = g
  · have hres : (Lib.follow s f g).2 = s := by
      simp [Lib.follow, hfg]
    rw [hres]
    exact histEvolves_refl _
  · by_cases hp : ((u, w) : Nat × Nat) = (f, g)
    · obtain ⟨e1, e2⟩ := Prod.ext_iff.mp hp
      subst e1
      subst e2
      rcases hE : s.follow_intervals (u, w) with _ | l
      · have hres : (Lib.follow s u w).2.follow_intervals (u, w) =
            some [FollowInterval.new s.version] := by
          simp [Lib.follow, if_neg hfg, hE, setHist_at]
        simp only [histListOf, hres, hE, Option.getD_some, Option.getD_none]
        exact Or.inr (Or.inl ⟨FollowInterval.new s.version, rfl⟩)
      · rcases l.eq_nil_or_concat' with rfl | ⟨l', i, rfl⟩
        · have hres : (Lib.follow s u w).2.follow_intervals (u, w) =
              s.follow_intervals (u, w) := by
            simp [Lib.follow, if_neg hfg, hE]
          simp only [histListOf, hres]
          exact histEvolves_refl _
        · by_cases hOpen : i.follow_end = OPEN
          · have hres : (Lib.follow s u w).2.follow_intervals (u, w) =
                s.follow_intervals (u, w) := by
              simp [Lib.follow, if_neg hfg, hE, List.getLast?_concat, hOpen]
            simp only [histListOf, hres]
            exact histEvolves_refl _
          · have hres : (Lib.follow s u w).2.follow_intervals (u, w) =
                some ((l' ++ [i]) ++ [FollowInterval.new s.version]) := by
              simp [Lib.follow, if_neg hfg, hE, List.getLast?_concat, hOpen,
                setHist_at]
            simp only [histListOf, hres, hE, Option.getD_some]
            exact Or.inr (Or.inl ⟨FollowInterval.new s.version, rfl⟩)
    · have hres : (Lib.follow s f g).2.follow_intervals (u, w) =
          s.follow_intervals (u, w) := lib_follow_hist_ne s f g hfg (u, w) hp
      simp only [histListOf, hres]
      exact histEvolves_refl _

theorem lib_unfollow_histEvolves (s : SocialNetwork) (f g u w : Nat) :
    HistEvolves (histListOf s u w) (histListOf (Lib.unfollow s f g).2 u w) := by
  by_cases hp : ((u, w) : Nat × Nat) = (f, g)
  · obtain ⟨e1, e2⟩ := Prod.ext_iff.mp hp
    subst e1
    subst e2
    by_cases hfg : u = w
    · have hres : (Lib.unfollow s u w).2 = s := by
        simp [Lib.unfollow, hfg]
      rw [hres]
      exact histEvolves_refl _
    · by_cases hidx : s.follows u w = true
      · rcases hE : s.follow_intervals (u, w) with _ | l
        · have hres : (Lib.unfollow s u w).2 = s := by
            simp [Lib.unfollow, if_neg hfg, hidx, hE]
          rw [hres]
          exact histEvolves_refl _
        · rcases l.eq_nil_or_concat' with rfl | ⟨l', i, rfl⟩
          · have hres : (Lib.unfollow s u w).2 = s := by
              simp [Lib.unfollow, if_neg hfg, hidx, hE]
            rw [hres]
            exact histEvolves_refl _
          · by_cases hOpen : i.follow_end = OPEN
            · have hres : (Lib.unfollow s u w).2.follow_intervals (u, w) =
                  some (l' ++ [{ i with follow_end := s.version }]) := by
                simp [Lib.unfollow, if_neg hfg, hidx, hE, isEmpty_concat,
                  List.getLast?_concat, hOpen, setLastEnd_concat, setHist_at]
              simp only [histListOf, hres, hE, Option.getD_some]
              exact Or.inr (Or.inr ⟨l', i, s.version, rfl, rfl⟩)
            · have hres : (Lib.unfollow s u w).2 = s := by
                simp [Lib.unfollow, if_neg hfg, hidx, hE, isEmpty_concat,
                  List.getLast?_concat, hOpen]
              rw [hres]
              exact histEvolves_refl _
      · have hidx' : s.follows u w = false := by
          simpa using hidx
        have hres : (Lib.unfollow s u w).2 = s := by
          simp [Lib.unfollow, if_neg hfg, hidx']
        rw [hres]
        exact histEvolves_refl _
  · have hres : (Lib.unfollow s f g).2.follow_intervals (u, w) =
        s.follow_intervals (u, w) := lib_unfollow_hist_ne s f g (u, w) hp
    simp only [histListOf, hres]
    exact histEvolves_refl _

/-- C9: in every `lib.rs`-reachable state, every stored edge history has at
most one OPEN interval, every closed interval satisfies `start ≤ end`, and
consecutive intervals are monotone in version order (`end ≤ next start`);
moreover for arbitrary states each call (`follow`, `unfollow`, `commit`)
either leaves an edge's history unchanged, appends one interval, or
mutates the `follow_end` field of the last interval -- never deletes. -/
theorem C9_history_invariants :
    (∀ s : SocialNetwork, LibReachable s →
      ∀ p l, s.follow_intervals p = some l →
        List.countP (fun i => decide (i.follow_end = OPEN)) l ≤ 1 ∧
        (∀ i ∈ l, i.follow_end ≠ OPEN → i.follow_start ≤ i.follow_end) ∧
        List.Chain' (fun a b => a.follow_end ≤ b.follow_start) l) ∧
    (∀ (s : SocialNetwork) (f g u w : Nat),
      HistEvolves (histListOf s u w) (histListOf (Lib.follow s f g).2 u w) ∧
      HistEvolves (histListOf s u w) (histListOf (Lib.unfollow s f g).2 u w) ∧
      HistEvolves (histListOf s u w) (histListOf (Lib.commit s).2 u w)) := by
  constructor
  · intro s hreach p l hp
    have hwf := (libReachable_inv s hreach).wf p l hp
    refine ⟨?_, hwf.closedWF, hwf.mono⟩
    rcases l.eq_nil_or_concat' with rfl | ⟨l', i, rfl⟩
    · simp
    · rw [List.countP_append]
      have hz : List.countP (fun i => decide (i.follow_end = OPEN)) l' = 0 := by
        rw [List.countP_eq_zero]
        intro j hj
        simpa using hwf.openOnlyLast j (by rw [List.dropLast_concat]; exact hj)
      have hone : List.countP (fun i => decide (i.follow_end = OPEN)) [i] ≤ 1 :=
        le_trans (List.countP_le_length _) (by simp)
      omega
  · intro s f g u w
    exact ⟨lib_follow_histEvolves s f g u w, lib_unfollow_histEvolves s f g u w,
      histEvolves_refl _⟩

/-- Witness for C9 at the reachable state after `follow(1,2)`: its single
interval list satisfies all three claimed interval invariants. -/
theorem C9_witness :
    List.countP (fun i => decide (i.follow_end = OPEN))
      [FollowInterval.new 0] ≤ 1 ∧
    (∀ i ∈ [FollowInterval.new 0],
      i.follow_end ≠ OPEN → i.follow_start ≤ i.follow_end) ∧
    List.Chain' (fun a b => a.follow_end ≤ b.follow_start)
      [FollowInterval.new 0] :=
  C9_history_invariants.1 libAfterFollow
    (LibReachable.follow SocialNetwork.new 1 2 LibReachable.base) (1, 2)
    [FollowInterval.new 0] (by decide)

@[simp]
theorem lib_commit_version (s : SocialNetwork) :
    (Lib.commit s).2.version = s.version + 1 := rfl

@[simp]
theorem lib_commit_hist (s : SocialNetwork) :
    (Lib.commit s).2.follow_intervals = s.follow_intervals := rfl

/-- C10 (implicit): on `lib.rs`, a successful `unfollow(a, b)` that closes
the open interval at the current version does not change the reading of
`is_following(a, b, None)` -- it is still true, because the closed interval
`[start, v]` remains active at the current version `v` -- and it becomes
false only after a subsequent `commit`. -/
theorem C10_unfollow_preserves_current_view (s : SocialNetwork) (a b : Nat)
    (hreach : LibReachable s) (l : List FollowInterval) (i : FollowInterval)
    (hE : s.follow_intervals (a, b) = some (l ++ [i]))
    (hOpen : i.follow_end = OPEN) :
    (Lib.unfollow s a b).1 = ROut.ok true ∧
    Lib.is_following (Lib.unfollow s a b).2 a b none = true ∧
    Lib.is_following (Lib.commit (Lib.unfollow s a b).2).2 a b none = false := by
  have hinv := libReachable_inv s hreach
  have hab : a ≠ b := by
    intro hcontra
    subst hcontra
    rw [hinv.noSelf a] at hE
    exact Option.noConfusion hE
  have hidx : s.follows a b = true :=
    (hinv.indexed a b (by rw [hE]; exact Option.some_ne_none _)).1
  have hwf := hinv.wf _ _ hE
  have hres : Lib.unfollow s a b =
      (ROut.ok true, setHist s a b (l ++ [{ i with follow_end := s.version }])) := by
    simp [Lib.unfollow, if_neg hab, hidx, hE, isEmpty_concat,
      List.getLast?_concat, hOpen, setLastEnd_concat]
  rw [hres]
  have hstart : i.follow_start ≤ s.version := hwf.startsLe i (by simp)
  refine ⟨rfl, ?_, ?_⟩
  · simp only [Lib.is_following, Option.getD_none, setHist_version, setHist_at,
      lt_self_iff_false, if_false, isEmpty_concat, Bool.false_eq_true]
    refine List.any_eq_true.mpr ⟨{ i with follow_end := s.version }, by simp, ?_⟩
    simp [FollowInterval.is_active, hstart]
  · simp only [Lib.is_following, Option.getD_none, lib_commit_version,
      lib_commit_hist, setHist_version, setHist_at, lt_self_iff_false,
      if_false, isEmpty_concat, Bool.false_eq_true]
    rw [List.any_eq_false]
    intro j hj
    rcases List.mem_append.mp hj with hjl | hji
    · have hclosed : j.follow_end ≠ OPEN :=
        hwf.openOnlyLast j (by rw [List.dropLast_concat]; exact hjl)
      have hle : j.follow_end ≤ s.version :=
        hwf.closedLe j (List.mem_append_left _ hjl) hclosed
      simp only [FollowInterval.is_active, Bool.and_eq_true, decide_eq_true_eq,
        not_and]
      intro _
      omega
    · rw [List.mem_singleton] at hji
      subst hji
      simp only [FollowInterval.is_active, Bool.and_eq_true, decide_eq_true_eq,
        not_and]
      intro _
      omega

/-- Witness for C10 at the reachable state after `follow(1,2)`. -/
theorem C10_witness :
    (Lib.unfollow libAfterFollow 1 2).1 = ROut.ok true ∧
    Lib.is_following (Lib.unfollow libAfterFollow 1 2).2 1 2 none = true ∧
    Lib.is_following (Lib.commit (Lib.unfollow libAfterFollow 1 2).2).2 1 2
      none = false :=
  C10_unfollow_preserves_current_view libAfterFollow 1 2
    (LibReachable.follow SocialNetwork.new 1 2 LibReachable.base) [] ⟨0, OPEN⟩
    (by decide) rfl

theorem lastOpenB_concat (l : List FollowInterval) (i : FollowInterval) :
    lastOpenB (some (l ++ [i])) = decide (i.follow_end = OPEN) := by
  simp [lastOpenB, List.getLast?_concat]

theorem snInv_new : SnInv SocialNetwork.new := by
  constructor
  · intro p l hp
    simp [SocialNetwork.new] at hp
  · intro a b hab
    simp [SocialNetwork.new] at hab

theorem snInv_follow (s : SocialNetwork) (f g : Nat) (h : SnInv s) :
    SnInv (Snlib.follow s f g).2 := by
  by_cases hfg : f = g
  · rw [show (Snlib.follow s f g).2 = s by simp [Snlib.follow, hfg]]
    exact h
  · rcases hE : s.follow_intervals (f, g) with _ | l
    · have hres : (Snlib.follow s f g).2 =
          setHist (addFollowEdge s f g) f g [FollowInterval.new s.version] := by
        simp [Snlib.follow, if_neg hfg, hE]
      rw [hres]
      constructor
      · intro p l' hp
        by_cases hpe : p = (f, g)
        · subst hpe
          rw [setHist_at] at hp
          injection hp with hp
          exact hp ▸ (by simp)
        · rw [setHist_ne _ f g _ p hpe] at hp
          exact h.nonempty p l' hp
      · intro a b hab
        by_cases hae : ((a, b) : Nat × Nat) = (f, g)
        · obtain ⟨e1, e2⟩ := Prod.ext_iff.mp hae
          subst e1
          subst e2
          rw [setHist_at]
          show lastOpenB (some ([] ++ [FollowInterval.new s.version])) = true
          rw [lastOpenB_concat]
          simp [FollowInterval.new]
        · rw [setHist_ne _ f g _ _ hae]
          rw [setHist_follows] at hab
          have hsab : s.follows a b = true := by
            have hne : ¬(a = f ∧ b = g) := fun hc => hae (Prod.ext_iff.mpr hc)
            simpa [addFollowEdge, hne] using hab
          exact h.openOfIdx a b hsab
    · rcases l.eq_nil_or_concat' with rfl | ⟨l', i, rfl⟩
      · exact absurd rfl (h.nonempty _ [] hE)
      · have hmain : ∀ L : List FollowInterval,
            (Snlib.follow s f g).2 = setHist (addFollowEdge s f g) f g L →
            lastOpenB (some L) = true → L ≠ [] → SnInv (Snlib.follow s f g).2 := by
          intro L hres hopen hLne
          rw [hres]
          constructor
          · intro p l2 hp
            by_cases hpe : p = (f, g)
            · subst hpe
              rw [setHist_at] at hp
              injection hp with hp
              exact hp ▸ hLne
            · rw [setHist_ne _ f g _ p hpe] at hp
              exact h.nonempty p l2 hp
          · intro a b hab
            by_cases hae : ((a, b) : Nat × Nat) = (f, g)
            · obtain ⟨e1, e2⟩ := Prod.ext_iff.mp hae
              subst e1
              subst e2
              rw [setHist_at]
              exact hopen
            · rw [setHist_ne _ f g _ _ hae]
              rw [setHist_follows] at hab
              have hsab : s.follows a b = true := by
                have hne : ¬(a = f ∧ b = g) := fun hc => hae (Prod.ext_iff.mpr hc)
                simpa [addFollowEdge, hne] using hab
              exact h.openOfIdx a b hsab
        by_cases hOpen : i.follow_end = OPEN
        · -- last interval already OPEN: only the index changes
          have hres : (Snlib.follow s f g).2 = addFollowEdge s f g := by
            simp [Snlib.follow, if_neg hfg, hE, List.getLast?_concat, hOpen]
          rw [hres]
          constructor
          · intro p l2 hp
            exact h.nonempty p l2 hp
          · intro a b hab
            by_cases hae : ((a, b) : Nat × Nat) = (f, g)
            · obtain ⟨e1, e2⟩ := Prod.ext_iff.mp hae
              subst e1
              subst e2
              show lastOpenB (s.follow_intervals (a, b)) = true
              rw [hE, lastOpenB_concat]
              simp [hOpen]
            · have hsab : s.follows a b = true := by
                have hne : ¬(a = f ∧ b = g) := fun hc => hae (Prod.ext_iff.mpr hc)
                simpa [addFollowEdge, hne] using hab
              exact h.openOfIdx a b hsab
        · by_cases hver : i.follow_end = s.version
          · have hvne : s.version ≠ OPEN := hver ▸ hOpen
            refine hmain (l' ++ [{ i with follow_end := OPEN }]) ?_ ?_ (by simp)
            · simp [Snlib.follow, if_neg hfg, hE, List.getLast?_concat, hOpen,
                hver, hvne, setLastEnd_concat]
            · rw [lastOpenB_concat]
              simp
          · refine hmain ((l' ++ [i]) ++ [FollowInterval.new s.version]) ?_ ?_
              (by simp)
            · simp [Snlib.follow, if_neg hfg, hE, List.getLast?_concat, hOpen,
                hver]
            · rw [lastOpenB_concat]
              simp [FollowInterval.new]

theorem snInv_unfollow (s : SocialNetwork) (f g : Nat) (h : SnInv s) :
    SnInv (Snlib.unfollow s f g).2 := by
  by_cases hfg : f = g
  · rw [show (Snlib.unfollow s f g).2 = s by simp [Snlib.unfollow, hfg]]
    exact h
  · by_cases hidx : s.follows f g = true
    · have hopen := h.openOfIdx f g hidx
      rcases hE : s.follow_intervals (f, g) with _ | l
      · rw [hE] at hopen
        simp [lastOpenB] at hopen
      · rcases l.eq_nil_or_concat' with rfl | ⟨l', i, rfl⟩
        · exact absurd rfl (h.nonempty _ [] hE)
        · rw [hE, lastOpenB_concat] at hopen
          have hOpen : i.follow_end = OPEN := of_decide_eq_true hopen
          have hres : (Snlib.unfollow s f g).2 =
              setHist (removeFollowEdge s f g) f g
                (l' ++ [{ i with follow_end := s.version }]) := by
            simp [Snlib.unfollow, if_neg hfg, hidx, hE, isEmpty_concat,
              List.getLast?_concat, hOpen, setLastEnd_concat]
          rw [hres]
          constructor
          · intro p l2 hp
            by_cases hpe : p = (f, g)
            · subst hpe
              rw [setHist_at] at hp
              injection hp with hp
              exact hp ▸ (by simp)
            · rw [setHist_ne _ f g _ p hpe] at hp
              exact h.nonempty p l2 hp
          · intro a b hab
            rw [setHist_follows] at hab
            obtain ⟨hsab, hne⟩ := removeFollowEdge_follows_of s f g a b hab
            have hne' : ((a, b) : Nat × Nat) ≠ (f, g) :=
              fun hc => hne (Prod.ext_iff.mp hc)
            rw [setHist_ne _ f g _ _ hne']
            exact h.openOfIdx a b hsab
    · have hidx' : s.follows f g = false := by
        simpa using hidx
      rw [show (Snlib.unfollow s f g).2 = s by
        simp [Snlib.unfollow, if_neg hfg, hidx']]
      exact h

theorem snInv_commit (s : SocialNetwork) (h : SnInv s) :
    SnInv (Snlib.commit s).2 :=
  ⟨fun p l hp => h.nonempty p l hp, fun a b hab => h.openOfIdx a b hab⟩

theorem snReachable_inv (s : SocialNetwork) (h : SnReachable s) : SnInv s := by
  induction h with
  | base => exact snInv_new
  | follow t f g _ ih => exact snInv_follow t f g ih
  | unfollow t f g _ ih => exact snInv_unfollow t f g ih
  | commit t _ ih => exact snInv_commit t ih

/-- C5 counterexample: in the `lib.rs`-reachable state after
`follow(1,2); unfollow(1,2); commit()` the adjacency index still lists the
edge while the last interval is closed at the earlier version 0 -- the
claim's own example of a state the transition rules cannot explain -- yet
`lib.rs::unfollow` returns `Ok(false)` (a normal boolean result) instead of
failing with `InvalidIntervalState`; `lib.rs` has no such error at all. -/
theorem C5_counterexample :
    libAfterToggleCommit.follows 1 2 = true ∧
    libAfterToggleCommit.version = 1 ∧
    libAfterToggleCommit.follow_intervals (1, 2) = some [⟨0, 0⟩] ∧
    (Lib.unfollow libAfterToggleCommit 1 2).1 = ROut.ok false := by decide

/-- C5 (amended): the claimed behavior is that of the `snlib.rs` variant:
in any reachable state, when the edge has no OPEN relationship (never
followed, or already closed) `unfollow` returns false and performs no
mutation; and in any state whose interval history the transition rules
cannot explain -- the adjacency index lists the edge while the last
interval is closed at some other version than the current one --
`unfollow` fails with the `InvalidIntervalState` error (`"Invalid follow
interval"`) instead of returning a normal boolean result.  The `lib.rs`
variant instead returns false there (see the counterexample). -/
theorem C5_amended_unfollow_errors (s : SocialNetwork) (f g : Nat)
    (hfg : f ≠ g) :
    (SnReachable s → lastOpenB (s.follow_intervals (f, g)) = false →
      Snlib.unfollow s f g = (ROut.ok false, s)) ∧
    (∀ l i, s.follows f g = true →
      s.follow_intervals (f, g) = some (l ++ [i]) →
      i.follow_end ≠ OPEN → i.follow_end ≠ s.version →
      Snlib.unfollow s f g =
        (ROut.err invalidIntervalMsg, removeFollowEdge s f g)) := by
  constructor
  · intro hreach hnotopen
    have hidx' : s.follows f g = false := by
      cases hb : s.follows f g
      · rfl
      · exfalso
        have hx := (snReachable_inv s hreach).openOfIdx f g hb
        rw [hnotopen] at hx
        exact Bool.false_ne_true hx
    simp [Snlib.unfollow, if_neg hfg, hidx']
  · intro l i hidx hE hne hv
    simp [Snlib.unfollow, if_neg hfg, hidx, hE, isEmpty_concat,
      List.getLast?_concat, hne, hv]

/-- Witness for C5: on the reachable `snlib.rs` state after
`follow(1,2); unfollow(1,2)` (closed interval, edge deindexed), a further
`unfollow(1,2)` returns false and leaves the state untouched. -/
theorem C5_witness :
    Snlib.unfollow snAfterToggle 1 2 = (ROut.ok false, snAfterToggle) :=
  (C5_amended_unfollow_errors snAfterToggle 1 2 (by decide)).1
    (SnReachable.unfollow snAfterFollow 1 2
      (SnReachable.follow SocialNetwork.new 1 2 SnReachable.base))
    (by decide)
